import Mathlib

/-!
Verification of the time-series alignment and zonal aggregation engine of the
climate-analyzer frontend.  The definitions below are a shallow embedding of
`buildZoneChart` and `formatTimestamp` from `src/frontend/src/pages/History.tsx`
and of the `buildZoneChart` variant in `src/frontend/src/pages/Dashboard.tsx`.

Modelling conventions:
* ISO-8601 timestamp strings are modelled as natural numbers counting minutes
  since an epoch; exact string equality becomes equality of instants, and
  `localeCompare` ordering becomes the numeric order (both agree on ISO-8601).
* JS numbers are modelled as rationals.
* A JS `Map` (insertion ordered) is an association list; a JS `Set` is a
  duplicate-free list in insertion order.
* The locale rendering of a timestamp is abstracted into the inductive
  `TimeLabel`: an HH:MM rendering is determined by the minute-of-day, a
  weekday+HH:MM rendering by the minute-of-week, and a month+day rendering by
  the day index (the time-of-day is dropped).
-/

namespace ClimateAnalyzer

/-- One sample, mirroring the `ReadingPoint` interface of `src/frontend/src/lib/api.ts`. -/
structure ReadingPoint where
  timestamp : Nat
  value : Option ℚ
  hvac_action : Option String := none
  hvac_mode : Option String := none
  setpoint_heat : Option ℚ := none
  setpoint_cool : Option ℚ := none
  deriving DecidableEq

/-- One sensor stream, mirroring the `SensorReadings` interface of `src/frontend/src/lib/api.ts`. -/
structure SensorSeries where
  sensor_id : Nat
  entity_id : String
  friendly_name : String
  zone_id : Option Int
  zone_color : Option String
  is_outdoor : Bool
  readings : List ReadingPoint
  deriving DecidableEq

/-- JavaScript `Math.round`: round half toward positive infinity. -/
def jsRound (q : ℚ) : ℤ := ⌊q + 1/2⌋

/-- `Math.round(x * 10) / 10`: round to one decimal place. -/
def round1 (q : ℚ) : ℚ := (jsRound (q * 10) : ℚ) / 10

/-- JavaScript `s || dflt` for an optional string: the fallback is used when the
value is absent or is the empty string (both are falsy). -/
def jsOrElse (s : Option String) (dflt : String) : String :=
  match s with
  | some v => if v = "" then dflt else v
  | none => dflt

/-- The per-zone accumulator of `buildZoneChart`
(`{ sensors; color; isOutdoor }` in the source). -/
structure ZoneGroup where
  sensors : List SensorSeries
  color : String
  isOutdoor : Bool
  deriving DecidableEq

/-- The `zoneMap : Map<number, ...>` of `buildZoneChart`, as an insertion-ordered
association list. -/
abbrev ZoneMap := List (Int × ZoneGroup)

/-- `zoneMap.get(k)` (with `has` = `isSome`). -/
def zmFind (m : ZoneMap) (k : Int) : Option ZoneGroup :=
  (m.find? (fun e => e.1 == k)).map (fun e => e.2)

/-- `zoneMap.set(k, g)` for a key already present: replace in place. -/
def zmSet (m : ZoneMap) (k : Int) (g : ZoneGroup) : ZoneMap :=
  m.map (fun e => if e.1 = k then (k, g) else e)

/-- One iteration of the first loop of `buildZoneChart`: skip a null zone;
otherwise create the group (color from this first sensor with JS falsy
fallback to "#38bdf8", outdoor flag from this sensor) or push into the
existing group, OR-ing the outdoor flag. -/
def addSensor (m : ZoneMap) (s : SensorSeries) : ZoneMap :=
  match s.zone_id with
  | none => m
  | some z =>
    match zmFind m z with
    | none =>
        m ++ [(z, { sensors := [s], color := jsOrElse s.zone_color "#38bdf8",
                    isOutdoor := s.is_outdoor })]
    | some g =>
        zmSet m z { sensors := g.sensors ++ [s], color := g.color,
                    isOutdoor := g.isOutdoor || s.is_outdoor }

/-- The `zoneMap` after the first loop of `buildZoneChart`. -/
def zoneMapOf (sensors : List SensorSeries) : ZoneMap :=
  sensors.foldl addSensor []

/-- `Set.add` on an insertion-ordered duplicate-free list. -/
def insertTs (acc : List Nat) (t : Nat) : List Nat :=
  if t ∈ acc then acc else acc ++ [t]

/-- The `allTimestamps` set of `buildZoneChart`: every reading of every input
sensor, null zone or not, contributes its timestamp. -/
def collectTimestamps (sensors : List SensorSeries) : List Nat :=
  sensors.foldl (fun acc s => s.readings.foldl (fun a r => insertTs a r.timestamp) acc) []

/-- Abstraction of the three locale renderings used by `formatTimestamp`. -/
inductive TimeLabel where
  | timeOfDay (minuteOfDay : Nat)
  | weekdayTime (minuteOfWeek : Nat)
  | monthDay (dayIndex : Nat)
  deriving DecidableEq

/-- `formatTimestamp` from History.tsx: HH:MM for spans up to 24 hours,
weekday plus HH:MM for spans up to 168 hours, month plus day beyond that. -/
def formatTimestamp (ts : Nat) (hours : ℚ) : TimeLabel :=
  if hours ≤ 24 then .timeOfDay (ts % 1440)
  else if hours ≤ 168 then .weekdayTime (ts % 10080)
  else .monthDay (ts / 1440)

/-- One chart point: the `{ time, _ts, ...zone values }` record.  The dynamic
`zone_<id>` keys are modelled as an association list keyed by the zone id. -/
structure AlignedPoint where
  time : TimeLabel
  ts : Nat
  values : List (Int × ℚ)
  deriving DecidableEq

/-- `sensor.readings.find((r) => r.timestamp === ts)?.value` — the first
matching reading only, then its (possibly null) value. -/
def sensorValueAt (s : SensorSeries) (ts : Nat) : Option ℚ :=
  (s.readings.find? (fun r => r.timestamp == ts)).bind (fun r => r.value)

/-- The `values` array gathered for one zone at one timestamp. -/
def zoneValuesAt (g : ZoneGroup) (ts : Nat) : List ℚ :=
  g.sensors.filterMap (fun s => sensorValueAt s ts)

/-- The zone entry written into a point: absent when no member contributed a
value, otherwise the arithmetic mean rounded to one decimal place. -/
def zoneValueAt (g : ZoneGroup) (ts : Nat) : Option ℚ :=
  let values := zoneValuesAt g ts
  if values = [] then none
  else some (round1 (values.sum / (values.length : ℚ)))

/-- The point built for one timestamp by the middle loop of `buildZoneChart`. -/
def pointAt (zm : ZoneMap) (label : Nat → TimeLabel) (ts : Nat) : AlignedPoint :=
  { time := label ts, ts := ts,
    values := zm.filterMap (fun e => (zoneValueAt e.2 ts).map (fun v => (e.1, v))) }

/-- `Array.from(timeMap.values()).sort((a, b) => a._ts.localeCompare(b._ts))`. -/
def sortPoints (ps : List AlignedPoint) : List AlignedPoint :=
  ps.mergeSort (fun a b => decide (a.ts ≤ b.ts))

/-- The aligned, sorted point list of `buildZoneChart` before decimation. -/
def alignedPoints (sensors : List SensorSeries) (hours : ℚ) : List AlignedPoint :=
  sortPoints ((collectTimestamps sensors).map
    (pointAt (zoneMapOf sensors) (fun ts => formatTimestamp ts hours)))

/-- The bounding step of `buildZoneChart`: when more than 500 points remain,
keep every `step`-th point where `step = Math.ceil(length / 500)`. -/
def decimate (points : List AlignedPoint) : List AlignedPoint :=
  if points.length > 500 then
    let step := (points.length + 499) / 500
    (points.enum.filter (fun p => p.1 % step == 0)).map (fun p => p.2)
  else points

/-- One legend entry, mirroring the `ChartLine` interface (the `zone_<id>` key
string is modelled by the zone id itself). -/
structure ChartLine where
  key : Int
  name : String
  color : String
  isOutdoor : Bool
  deriving DecidableEq

/-- `zoneNameMap.get(k)` on the insertion-ordered name map. -/
def nameFind (m : List (Int × String)) (k : Int) : Option String :=
  (m.find? (fun e => e.1 == k)).map (fun e => e.2)

/-- The final loop of `buildZoneChart`: one ChartLine per zoneMap entry, with
the JS falsy fallback `zoneNameMap.get(id) || "Zone " + id`. -/
def chartLinesOf (zm : ZoneMap) (zoneNames : List (Int × String)) : List ChartLine :=
  zm.map (fun e =>
    { key := e.1,
      name := jsOrElse (nameFind zoneNames e.1) ("Zone " ++ toString e.1),
      color := e.2.color,
      isOutdoor := e.2.isOutdoor })

/-- The `{ chartPoints, chartLines }` result record. -/
structure ZoneChart where
  chartPoints : List AlignedPoint
  chartLines : List ChartLine
  deriving DecidableEq

namespace History

/-- `buildZoneChart` from `src/frontend/src/pages/History.tsx`. -/
def buildZoneChart (sensors : List SensorSeries) (zoneNameMap : List (Int × String))
    (hours : ℚ) : ZoneChart :=
  { chartPoints := decimate (alignedPoints sensors hours),
    chartLines := chartLinesOf (zoneMapOf sensors) zoneNameMap }

end History

namespace Dashboard

/-- `buildZoneChart` from `src/frontend/src/pages/Dashboard.tsx`: same grouping
and alignment, HH:MM labels always, an optional name map defaulting to empty,
and no decimation. -/
def buildZoneChart (sensors : List SensorSeries)
    (zoneNameMap : Option (List (Int × String))) : ZoneChart :=
  { chartPoints := sortPoints ((collectTimestamps sensors).map
      (pointAt (zoneMapOf sensors) (fun ts => .timeOfDay (ts % 1440)))),
    chartLines := chartLinesOf (zoneMapOf sensors) (zoneNameMap.getD []) }

end Dashboard

/-- Spec-side view: the member sensors of a zone, in input order. -/
def membersOf (sensors : List SensorSeries) (z : Int) : List SensorSeries :=
  sensors.filter (fun s => s.zone_id == some z)

/-- Spec-side view: the non-null values contributed to a zone at a timestamp,
each member contributing the value of its first reading at that instant. -/
def gatheredValues (sensors : List SensorSeries) (z : Int) (ts : Nat) : List ℚ :=
  (membersOf sensors z).filterMap (fun s => sensorValueAt s ts)

/-- Spec-side view of one zoneMap entry, computed directly from the input. -/
def groupSpec (sensors : List SensorSeries) (z : Int) : Option ZoneGroup :=
  match membersOf sensors z with
  | [] => none
  | s0 :: _ =>
      some { sensors := membersOf sensors z,
             color := jsOrElse s0.zone_color "#38bdf8",
             isOutdoor := (membersOf sensors z).any (fun s => s.is_outdoor) }

/-- Lookup of a zone key in a point's value map. -/
def valueFind (z : Int) (vals : List (Int × ℚ)) : Option ℚ :=
  (vals.find? (fun e => e.1 == z)).map (fun e => e.2)

/-! ### Lemmas about the timestamp set -/

theorem mem_insertTs {acc : List Nat} {t x : Nat} :
    x ∈ insertTs acc t ↔ x ∈ acc ∨ x = t := by
  unfold insertTs
  split
  · constructor
    · exact fun hx => Or.inl hx
    · rintro (hx | rfl) <;> [exact hx; assumption]
  · simp [List.mem_append]

theorem nodup_insertTs {acc : List Nat} {t : Nat} (h : acc.Nodup) :
    (insertTs acc t).Nodup := by
  unfold insertTs
  split
  · exact h
  · simpa [List.nodup_append, h] using (by assumption : ¬ t ∈ acc)

theorem mem_foldl_insertTs {rs : List ReadingPoint} :
    ∀ {acc : List Nat} {x : Nat},
      x ∈ rs.foldl (fun a r => insertTs a r.timestamp) acc ↔
        x ∈ acc ∨ ∃ r ∈ rs, r.timestamp = x := by
  induction rs with
  | nil => simp
  | cons r rs ih =>
      intro acc x
      simp only [List.foldl_cons, ih, mem_insertTs]
      constructor
      · rintro ((hx | rfl) | ⟨r2, hr2, rfl⟩)
        · exact Or.inl hx
        · exact Or.inr ⟨r, List.mem_cons_self .., rfl⟩
        · exact Or.inr ⟨r2, List.mem_cons_of_mem _ hr2, rfl⟩
      · rintro (hx | ⟨r2, hr2, rfl⟩)
        · exact Or.inl (Or.inl hx)
        · rcases List.mem_cons.mp hr2 with rfl | hr2
          · exact Or.inl (Or.inr rfl)
          · exact Or.inr ⟨r2, hr2, rfl⟩

theorem nodup_foldl_insertTs {rs : List ReadingPoint} :
    ∀ {acc : List Nat}, acc.Nodup →
      (rs.foldl (fun a r => insertTs a r.timestamp) acc).Nodup := by
  induction rs with
  | nil => exact fun h => h
  | cons r rs ih => exact fun h => ih (nodup_insertTs h)

theorem mem_collectTimestamps {sensors : List SensorSeries} {x : Nat} :
    x ∈ collectTimestamps sensors ↔ ∃ s ∈ sensors, ∃ r ∈ s.readings, r.timestamp = x := by
  have main : ∀ (l : List SensorSeries) (acc : List Nat),
      x ∈ l.foldl (fun acc s => s.readings.foldl (fun a r => insertTs a r.timestamp) acc) acc ↔
        x ∈ acc ∨ ∃ s ∈ l, ∃ r ∈ s.readings, r.timestamp = x := by
    intro l
    induction l with
    | nil => simp
    | cons s l ih =>
        intro acc
        simp only [List.foldl_cons, ih, mem_foldl_insertTs]
        constructor
        · rintro ((hx | hr) | hrest)
          · exact Or.inl hx
          · exact Or.inr ⟨s, List.mem_cons_self .., hr⟩
          · obtain ⟨s2, hs2, hr⟩ := hrest
            exact Or.inr ⟨s2, List.mem_cons_of_mem _ hs2, hr⟩
        · rintro (hx | ⟨s2, hs2, hr⟩)
          · exact Or.inl (Or.inl hx)
          · rcases List.mem_cons.mp hs2 with rfl | hs2
            · exact Or.inl (Or.inr hr)
            · exact Or.inr ⟨s2, hs2, hr⟩
  simpa using main sensors []

theorem nodup_collectTimestamps (sensors : List SensorSeries) :
    (collectTimestamps sensors).Nodup := by
  have main : ∀ (l : List SensorSeries) (acc : List Nat), acc.Nodup →
      (l.foldl (fun acc s => s.readings.foldl (fun a r => insertTs a r.timestamp) acc) acc).Nodup := by
    intro l
    induction l with
    | nil => exact fun _ h => h
    | cons s l ih => exact fun acc h => ih _ (nodup_foldl_insertTs h)
  exact main sensors [] List.nodup_nil

/-! ### Lemmas about the zone map -/

theorem zmFind_zmSet_ne {m : ZoneMap} {k z : Int} {g : ZoneGroup} (h : k ≠ z) :
    zmFind (zmSet m z g) k = zmFind m k := by
  induction m with
  | nil => rfl
  | cons e m ih =>
      by_cases he : e.1 = z
      · have hk : (e.1 == k) = false := by
          simp [beq_eq_false_iff_ne, he]
          exact fun hzk => h hzk.symm
        simp only [zmSet, List.map_cons, zmFind, List.find?]
        rw [if_pos he]
        have hzk : (z == k) = false := by
          simp [beq_eq_false_iff_ne]
          exact fun hzk => h hzk.symm
        simp only [hzk, hk]
        exact ih
      · simp only [zmSet, List.map_cons, zmFind, List.find?]
        rw [if_neg he]
        cases hek : (e.1 == k) with
        | true => rfl
        | false => exact ih

theorem zmFind_zmSet_self {m : ZoneMap} {z : Int} {g0 g : ZoneGroup}
    (h : zmFind m z = some g0) : zmFind (zmSet m z g) z = some g := by
  induction m with
  | nil => simp [zmFind] at h
  | cons e m ih =>
      by_cases he : e.1 = z
      · simp only [zmSet, List.map_cons, zmFind, List.find?]
        rw [if_pos he]
        simp
      · simp only [zmFind, List.find?] at h
        have hez : (e.1 == z) = false := by simp [beq_eq_false_iff_ne, he]
        rw [hez] at h
        simp only [zmSet, List.map_cons, zmFind, List.find?]
        rw [if_neg he, hez]
        exact ih h

theorem zmFind_append_of_ne {m : ZoneMap} {k z : Int} {g : ZoneGroup} (h : k ≠ z) :
    zmFind (m ++ [(z, g)]) k = zmFind m k := by
  have hzk : (z == k) = false := by
    simp [beq_eq_false_iff_ne]
    exact fun hzk => h hzk.symm
  simp only [zmFind, List.find?_append]
  cases hm : m.find? (fun e => e.1 == k) with
  | some e => simp
  | none => simp [List.find?, hzk]

theorem zmFind_append_self {m : ZoneMap} {z : Int} {g : ZoneGroup}
    (h : zmFind m z = none) : zmFind (m ++ [(z, g)]) z = some g := by
  simp only [zmFind, List.find?_append]
  simp only [zmFind] at h
  cases hm : m.find? (fun e => e.1 == z) with
  | some e => rw [hm] at h; simp at h
  | none => simp [List.find?]

theorem membersOf_append_of_ne {sensors : List SensorSeries} {s : SensorSeries} {k : Int}
    (h : s.zone_id ≠ some k) :
    membersOf (sensors ++ [s]) k = membersOf sensors k := by
  have hb : (s.zone_id == some k) = false := by simp [beq_eq_false_iff_ne, h]
  simp [membersOf, List.filter_append, List.filter, hb]

theorem membersOf_append_self {sensors : List SensorSeries} {s : SensorSeries} {z : Int}
    (h : s.zone_id = some z) :
    membersOf (sensors ++ [s]) z = membersOf sensors z ++ [s] := by
  have hb : (s.zone_id == some z) = true := by simp [h]
  simp [membersOf, List.filter_append, List.filter, hb]

/-- The zone map computed by the first loop, characterized entirely in terms of
the input list: present exactly for zones with a member, with the member list
in input order, the color derived from the first member, and the outdoor flag
an OR over members. -/
theorem zmFind_zoneMapOf (sensors : List SensorSeries) (k : Int) :
    zmFind (zoneMapOf sensors) k = groupSpec sensors k := by
  induction sensors using List.reverseRecOn with
  | nil => rfl
  | append_singleton l s ih =>
      have hfold : zoneMapOf (l ++ [s]) = addSensor (zoneMapOf l) s := by
        simp [zoneMapOf, List.foldl_append]
      rw [hfold]
      cases hz : s.zone_id with
      | none =>
          have hne : s.zone_id ≠ some k := by simp [hz]
          simp only [addSensor, hz]
          rw [ih]
          unfold groupSpec
          rw [membersOf_append_of_ne hne]
      | some z =>
          by_cases hkz : k = z
          · subst hkz
            cases hfind : zmFind (zoneMapOf l) k with
            | none =>
                rw [hfind] at ih
                simp only [addSensor, hz, hfind]
                rw [zmFind_append_self hfind]
                unfold groupSpec at ih ⊢
                rw [membersOf_append_self hz]
                cases hmem : membersOf l k with
                | nil => simp [hmem]
                | cons s0 rest => rw [hmem] at ih; simp at ih
            | some g =>
                rw [hfind] at ih
                simp only [addSensor, hz, hfind]
                rw [zmFind_zmSet_self hfind]
                unfold groupSpec at ih ⊢
                rw [membersOf_append_self hz]
                cases hmem : membersOf l k with
                | nil => rw [hmem] at ih; simp at ih
                | cons s0 rest =>
                    rw [hmem] at ih
                    simp only [Option.some.injEq] at ih
                    simp only [List.cons_append, Option.some.injEq]
                    rw [ih]
                    simp [List.any_append, Bool.or_assoc]
          · have hne : s.zone_id ≠ some k := by
              rw [hz]; exact fun hc => hkz (Option.some.inj hc).symm
            cases hfind : zmFind (zoneMapOf l) z with
            | none =>
                simp only [addSensor, hz, hfind]
                rw [zmFind_append_of_ne hkz, ih]
                unfold groupSpec
                rw [membersOf_append_of_ne hne]
            | some g =>
                simp only [addSensor, hz, hfind]
                rw [zmFind_zmSet_ne hkz, ih]
                unfold groupSpec
                rw [membersOf_append_of_ne hne]

theorem zmFind_eq_none_iff {m : ZoneMap} {k : Int} :
    zmFind m k = none ↔ ∀ e ∈ m, e.1 ≠ k := by
  simp [zmFind, List.find?_eq_none]

theorem nodup_keys_zoneMapOf (sensors : List SensorSeries) :
    ((zoneMapOf sensors).map (fun e => e.1)).Nodup := by
  induction sensors using List.reverseRecOn with
  | nil => simp [zoneMapOf]
  | append_singleton l s ih =>
      have hfold : zoneMapOf (l ++ [s]) = addSensor (zoneMapOf l) s := by
        simp [zoneMapOf, List.foldl_append]
      rw [hfold]
      cases hz : s.zone_id with
      | none => simpa [addSensor, hz] using ih
      | some z =>
          cases hfind : zmFind (zoneMapOf l) z with
          | none =>
              have hz2 : ∀ e ∈ zoneMapOf l, e.1 ≠ z := zmFind_eq_none_iff.mp hfind
              simp only [addSensor, hz, hfind, List.map_append, List.map_cons, List.map_nil]
              rw [List.nodup_append]
              refine ⟨ih, List.nodup_singleton _, ?_⟩
              intro a ha hb
              simp only [List.mem_singleton] at hb
              subst hb
              obtain ⟨e, he, rfl⟩ := List.mem_map.mp ha
              exact hz2 e he rfl
          | some g =>
              have hkeys : (zmSet (zoneMapOf l) z
                  { sensors := g.sensors ++ [s], color := g.color,
                    isOutdoor := g.isOutdoor || s.is_outdoor }).map (fun e => e.1) =
                  (zoneMapOf l).map (fun e => e.1) := by
                unfold zmSet
                rw [List.map_map]
                refine List.map_congr_left ?_
                intro e _
                by_cases he : e.1 = z
                · simp [he]
                · simp [he]
              simpa [addSensor, hz, hfind, hkeys] using ih

theorem zmFind_of_mem {m : ZoneMap} (hnd : (m.map (fun e => e.1)).Nodup)
    {e : Int × ZoneGroup} (he : e ∈ m) : zmFind m e.1 = some e.2 := by
  induction m with
  | nil => simp at he
  | cons e0 m ih =>
      rcases List.mem_cons.mp he with rfl | he2
      · simp [zmFind, List.find?]
      · have hne : e0.1 ≠ e.1 := by
          simp only [List.map_cons, List.nodup_cons] at hnd
          intro hc
          exact hnd.1 (hc ▸ List.mem_map.mpr ⟨e, he2, rfl⟩)
        have hb : (e0.1 == e.1) = false := by simp [beq_eq_false_iff_ne, hne]
        simp only [zmFind, List.find?, hb]
        exact ih (by simpa [List.nodup_cons] using hnd.of_cons) he2

theorem valueFind_filterMap_of_not_mem {zm : ZoneMap} {t : Nat} {k : Int}
    (h : ∀ e ∈ zm, e.1 ≠ k) :
    valueFind k (zm.filterMap (fun e => (zoneValueAt e.2 t).map (fun v => (e.1, v)))) = none := by
  induction zm with
  | nil => rfl
  | cons e zm ih =>
      have hek : e.1 ≠ k := h e (List.mem_cons_self ..)
      have hb : (e.1 == k) = false := by simp [beq_eq_false_iff_ne, hek]
      cases hv : zoneValueAt e.2 t with
      | none =>
          simp only [List.filterMap_cons, hv, Option.map_none']
          exact ih (fun e2 he2 => h e2 (List.mem_cons_of_mem _ he2))
      | some v =>
          simp only [List.filterMap_cons, hv, Option.map_some']
          simp only [valueFind, List.find?, hb]
          exact ih (fun e2 he2 => h e2 (List.mem_cons_of_mem _ he2))

/-- Looking a zone key up in a built point is the same as computing that zone's
optional averaged value from the zone map. -/
theorem valueFind_pointAt {zm : ZoneMap} (hnd : (zm.map (fun e => e.1)).Nodup)
    (label : Nat → TimeLabel) (t : Nat) (k : Int) :
    valueFind k (pointAt zm label t).values = (zmFind zm k).bind (fun g => zoneValueAt g t) := by
  induction zm with
  | nil => rfl
  | cons e zm ih =>
      have hnd2 : (zm.map (fun e => e.1)).Nodup := by
        simpa [List.nodup_cons] using hnd.of_cons
      by_cases hek : e.1 = k
      · have hb : (e.1 == k) = true := by simp [hek]
        have hnotin : ∀ e2 ∈ zm, e2.1 ≠ k := by
          intro e2 he2 hc
          simp only [List.map_cons, List.nodup_cons] at hnd
          exact hnd.1 (by rw [hek, ← hc]; exact List.mem_map.mpr ⟨e2, he2, rfl⟩)
        cases hv : zoneValueAt e.2 t with
        | none =>
            simp only [pointAt, List.filterMap_cons, hv, Option.map_none', zmFind,
              List.find?, hb, Option.map_some', Option.some_bind]
            exact valueFind_filterMap_of_not_mem hnotin
        | some v =>
            simp only [pointAt, List.filterMap_cons, hv, Option.map_some', zmFind,
              List.find?, hb, Option.some_bind]
            simp [valueFind, List.find?, hb, hv]
      · have hb : (e.1 == k) = false := by simp [beq_eq_false_iff_ne, hek]
        cases hv : zoneValueAt e.2 t with
        | none =>
            simp only [pointAt, List.filterMap_cons, hv, Option.map_none', zmFind, List.find?, hb]
            simpa [pointAt, zmFind] using ih hnd2
        | some v =>
            simp only [pointAt, List.filterMap_cons, hv, Option.map_some', zmFind, List.find?, hb]
            have := ih hnd2
            simp only [pointAt, zmFind] at this
            simpa [valueFind, List.find?, hb] using this

/-! ### Lemmas about sorting and the aligned point list -/

theorem sortPoints_perm (ps : List AlignedPoint) : (sortPoints ps).Perm ps :=
  List.mergeSort_perm ps _

theorem ts_pointAt (zm : ZoneMap) (label : Nat → TimeLabel) (t : Nat) :
    (pointAt zm label t).ts = t := rfl

theorem alignedPoints_perm (sensors : List SensorSeries) (hours : ℚ) :
    (alignedPoints sensors hours).Perm ((collectTimestamps sensors).map
      (pointAt (zoneMapOf sensors) (fun ts => formatTimestamp ts hours))) :=
  sortPoints_perm _

theorem map_ts_alignedPoints_perm (sensors : List SensorSeries) (hours : ℚ) :
    ((alignedPoints sensors hours).map (fun p => p.ts)).Perm (collectTimestamps sensors) := by
  have h1 := (alignedPoints_perm sensors hours).map (fun p => p.ts)
  rw [List.map_map] at h1
  have h2 : (collectTimestamps sensors).map
      ((fun p => p.ts) ∘ pointAt (zoneMapOf sensors) (fun ts => formatTimestamp ts hours)) =
      collectTimestamps sensors := by
    rw [show ((fun p => p.ts) ∘ pointAt (zoneMapOf sensors)
        (fun ts => formatTimestamp ts hours)) = id from rfl, List.map_id]
  rwa [h2] at h1

theorem nodup_map_ts_alignedPoints (sensors : List SensorSeries) (hours : ℚ) :
    ((alignedPoints sensors hours).map (fun p => p.ts)).Nodup :=
  ((map_ts_alignedPoints_perm sensors hours).nodup_iff).mpr (nodup_collectTimestamps sensors)

theorem sorted_le_alignedPoints (sensors : List SensorSeries) (hours : ℚ) :
    (alignedPoints sensors hours).Pairwise (fun a b => a.ts ≤ b.ts) := by
  have h := @List.sorted_mergeSort AlignedPoint
    (fun a b => decide (a.ts ≤ b.ts))
    (fun a b c hab hbc => by
      simp only [decide_eq_true_eq] at *
      exact le_trans hab hbc)
    (fun a b => by
      rcases Nat.le_total a.ts b.ts with h | h <;> simp [h])
    ((collectTimestamps sensors).map
      (pointAt (zoneMapOf sensors) (fun ts => formatTimestamp ts hours)))
  exact (List.Pairwise.imp (fun hab => by simpa using hab)) h

theorem sorted_lt_alignedPoints (sensors : List SensorSeries) (hours : ℚ) :
    (alignedPoints sensors hours).Pairwise (fun a b => a.ts < b.ts) := by
  have hle := sorted_le_alignedPoints sensors hours
  have hne : (alignedPoints sensors hours).Pairwise (fun a b => a.ts ≠ b.ts) :=
    List.pairwise_map.mp (nodup_map_ts_alignedPoints sensors hours)
  exact (hle.and hne).imp (fun h => lt_of_le_of_ne h.1 h.2)

theorem decimate_sublist (ps : List AlignedPoint) : (decimate ps).Sublist ps := by
  unfold decimate
  split
  · have h1 : ((ps.enum.filter
        (fun p => p.1 % ((ps.length + 499) / 500) == 0)).map (fun p => p.2)).Sublist
        (ps.enum.map (fun p => p.2)) :=
      (List.filter_sublist ps.enum).map _
    have h2 : ps.enum.map (fun p => p.2) = ps := List.enum_map_snd ps
    simpa [h2] using h1
  · exact List.Sublist.refl ps

/-! ### Stride decimation, characterized structurally -/

/-- Spec-side view of stride decimation: keep the head, then recurse after
dropping the next n-1 elements. -/
def everyNth {α : Type} (n : Nat) : List α → List α
  | [] => []
  | a :: rest => a :: everyNth n (rest.drop (n - 1))
termination_by l => l.length
decreasing_by
  simp only [List.length_drop, List.length_cons]
  omega

theorem everyNth_nil {α : Type} (n : Nat) : everyNth n ([] : List α) = [] := by
  rw [everyNth]

theorem everyNth_cons {α : Type} (n : Nat) (a : α) (rest : List α) :
    everyNth n (a :: rest) = a :: everyNth n (rest.drop (n - 1)) := by
  rw [everyNth]

theorem mod_succ_eq {m n : Nat} (hn : 0 < n) :
    (m + 1) % n = if m % n + 1 = n then 0 else m % n + 1 := by
  have hd := Nat.div_add_mod m n
  have hr : m % n < n := Nat.mod_lt m hn
  split
  · rename_i heq
    have hm : m + 1 = n * (m / n) + n := by omega
    rw [hm, ← Nat.mul_succ, Nat.mul_mod_right]
  · rename_i hne
    have hm : m + 1 = (m % n + 1) + n * (m / n) := by omega
    rw [hm, Nat.add_mul_mod_self_left, Nat.mod_eq_of_lt (by omega)]

theorem filter_enumFrom_everyNth {α : Type} {n : Nat} (hn : 0 < n) (l : List α) :
    ∀ m : Nat, (((List.enumFrom m l).filter (fun p => p.1 % n == 0)).map Prod.snd) =
      if m % n = 0 then everyNth n l else everyNth n (l.drop (n - m % n)) := by
  induction l with
  | nil =>
      intro m
      split <;> simp [everyNth]
  | cons a rest ih =>
      intro m
      have hsucc := @mod_succ_eq m n hn
      by_cases hm : m % n = 0
      · have hb : (m % n == 0) = true := by simp [hm]
        rw [if_pos hm]
        simp only [List.enumFrom_cons, List.filter_cons, hb, if_true, List.map_cons]
        by_cases h1 : n = 1
        · subst h1
          have h2 : (m + 1) % 1 = 0 := Nat.mod_one _
          rw [ih (m + 1), if_pos h2]
          rw [everyNth_cons, show (1 : Nat) - 1 = 0 from rfl, List.drop_zero]
        · have h2 : (m + 1) % n = 1 := by
            rw [hsucc, hm]
            rw [if_neg (by omega)]
          rw [ih (m + 1), if_neg (by omega), h2, everyNth_cons]
      · have hb : (m % n == 0) = false := by simp [hm]
        rw [if_neg hm]
        simp only [List.enumFrom_cons, List.filter_cons, hb, Bool.false_eq_true, if_false]
        have hr : m % n < n := Nat.mod_lt m hn
        by_cases hlast : m % n + 1 = n
        · have h2 : (m + 1) % n = 0 := by rw [hsucc, if_pos hlast]
          rw [ih (m + 1), if_pos h2]
          have hdrop : (a :: rest).drop (n - m % n) = rest := by
            rw [show n - m % n = 1 from by omega]
            rfl
          rw [hdrop]
        · have h2 : (m + 1) % n = m % n + 1 := by rw [hsucc, if_neg hlast]
          rw [ih (m + 1), h2, if_neg (by omega)]
          have hdrop : (a :: rest).drop (n - m % n) = rest.drop (n - (m % n + 1)) := by
            rw [show n - m % n = (n - (m % n + 1)) + 1 from by omega]
            rfl
          rw [hdrop]

theorem decimate_eq_everyNth {ps : List AlignedPoint} (h : 500 < ps.length) :
    decimate ps = everyNth ((ps.length + 499) / 500) ps := by
  have hn : 0 < (ps.length + 499) / 500 := by omega
  unfold decimate
  rw [if_pos (by omega)]
  have hmain := filter_enumFrom_everyNth hn ps 0
  rw [if_pos (Nat.zero_mod _)] at hmain
  exact hmain

theorem everyNth_length {α : Type} {n : Nat} (hn : 0 < n) :
    ∀ (fuel : Nat) (l : List α), l.length ≤ fuel →
      (everyNth n l).length = (l.length + n - 1) / n := by
  intro fuel
  induction fuel with
  | zero =>
      intro l hl
      have hnil : l = [] := List.length_eq_zero.mp (by omega)
      subst hnil
      simp [everyNth_nil, Nat.div_eq_of_lt (by omega : n - 1 < n)]
  | succ fuel ih =>
      intro l hl
      cases l with
      | nil => simp [everyNth_nil, Nat.div_eq_of_lt (by omega : n - 1 < n)]
      | cons a rest =>
          rw [everyNth_cons]
          simp only [List.length_cons] at hl
          have hrec := ih (rest.drop (n - 1)) (by simp only [List.length_drop]; omega)
          simp only [List.length_cons, hrec, List.length_drop]
          have hR : rest.length + 1 + n - 1 = rest.length + n := by omega
          rw [hR, Nat.add_div_right _ hn]
          rcases le_or_lt (n - 1) rest.length with hle | hlt
          · have hL : rest.length - (n - 1) + n - 1 = rest.length := by omega
            rw [hL]
          · have hL : rest.length - (n - 1) = 0 := by omega
            rw [hL]
            rw [Nat.div_eq_of_lt (by omega : 0 + n - 1 < n),
              Nat.div_eq_of_lt (by omega : rest.length < n)]

theorem everyNth_getElem? {α : Type} {n : Nat} (hn : 0 < n) :
    ∀ (fuel : Nat) (l : List α) (j : Nat), l.length ≤ fuel →
      (everyNth n l)[j]? = l[j * n]? := by
  intro fuel
  induction fuel with
  | zero =>
      intro l j hl
      have hnil : l = [] := List.length_eq_zero.mp (by omega)
      subst hnil
      simp [everyNth_nil]
  | succ fuel ih =>
      intro l j hl
      cases l with
      | nil => simp [everyNth_nil]
      | cons a rest =>
          rw [everyNth_cons]
          cases j with
          | zero => simp
          | succ j =>
              simp only [List.length_cons] at hl
              have hrec := ih (rest.drop (n - 1)) j (by simp only [List.length_drop]; omega)
              rw [List.getElem?_cons_succ, hrec, List.getElem?_drop]
              have hidx : (j + 1) * n = (n - 1 + j * n) + 1 := by
                rw [Nat.succ_mul]
                omega
              rw [hidx, List.getElem?_cons_succ]

theorem decimate_length_le (ps : List AlignedPoint) : (decimate ps).length ≤ 500 := by
  rcases le_or_lt ps.length 500 with hle | hlt
  · unfold decimate
    rw [if_neg (by omega)]
    exact hle
  · have hn0 : 0 < (ps.length + 499) / 500 := by omega
    rw [decimate_eq_everyNth hlt,
      everyNth_length hn0 ps.length ps (Nat.le_refl _)]
    have hle2 : ps.length ≤ 500 * ((ps.length + 499) / 500) := by omega
    have hmono : (ps.length + (ps.length + 499) / 500 - 1) / ((ps.length + 499) / 500) ≤
        (500 * ((ps.length + 499) / 500) + (ps.length + 499) / 500 - 1) /
          ((ps.length + 499) / 500) :=
      Nat.div_le_div_right (by omega)
    have hceil : (500 * ((ps.length + 499) / 500) + (ps.length + 499) / 500 - 1) /
        ((ps.length + 499) / 500) = 500 := by
      have h1 : 500 * ((ps.length + 499) / 500) + (ps.length + 499) / 500 - 1 =
          ((ps.length + 499) / 500) * 500 + ((ps.length + 499) / 500 - 1) := by
        rw [Nat.mul_comm]
        omega
      rw [h1, Nat.mul_add_div hn0, Nat.div_eq_of_lt (by omega)]
    omega

/-! ### Evaluation helpers for small inputs -/

theorem sortPoints_nil : sortPoints [] = [] :=
  (sortPoints_perm []).eq_nil

theorem sortPoints_singleton (p : AlignedPoint) : sortPoints [p] = [p] :=
  List.perm_singleton.mp (sortPoints_perm [p])

/-! ### C2: union of timestamps -/

/-- C2: before decimation, the timestamps of the output points are exactly the
union of the reading timestamps over all input series, with one point per
distinct timestamp (no timestamp invented, none dropped, none duplicated). -/
theorem c2_union_of_timestamps (sensors : List SensorSeries) (hours : ℚ) :
    ((alignedPoints sensors hours).map (fun p => p.ts)).Nodup ∧
    ∀ t : Nat, t ∈ (alignedPoints sensors hours).map (fun p => p.ts) ↔
      ∃ s ∈ sensors, ∃ r ∈ s.readings, r.timestamp = t := by
  refine ⟨nodup_map_ts_alignedPoints sensors hours, ?_⟩
  intro t
  rw [(map_ts_alignedPoints_perm sensors hours).mem_iff]
  exact mem_collectTimestamps

/-! ### C4: strict ordering -/

/-- C4: the aligned points are strictly sorted by timestamp, both before and
after decimation, and decimation keeps them in order (it yields a sublist). -/
theorem c4_strict_ordering (sensors : List SensorSeries) (names : List (Int × String))
    (hours : ℚ) :
    (alignedPoints sensors hours).Pairwise (fun a b => a.ts < b.ts) ∧
    (History.buildZoneChart sensors names hours).chartPoints.Pairwise
      (fun a b => a.ts < b.ts) ∧
    (History.buildZoneChart sensors names hours).chartPoints.Sublist
      (alignedPoints sensors hours) := by
  have h1 := sorted_lt_alignedPoints sensors hours
  have hsub : (History.buildZoneChart sensors names hours).chartPoints.Sublist
      (alignedPoints sensors hours) := decimate_sublist _
  exact ⟨h1, List.Pairwise.sublist hsub h1, hsub⟩

/-! ### C3: stride decimation -/

/-- C3: decimation is the identity on at most 500 points; above 500 points it
keeps exactly the points at indices that are multiples of
n = ceil(length / 500), so the output is the input sampled at stride n, has
ceil(length / n) points, never exceeds 500 points, and keeps the first point. -/
theorem c3_decimation_bound (points : List AlignedPoint) :
    (points.length ≤ 500 → decimate points = points) ∧
    (500 < points.length →
      ∀ n : Nat, n = (points.length + 499) / 500 →
        (∀ j : Nat, (decimate points)[j]? = points[j * n]?) ∧
        (decimate points).length = (points.length + n - 1) / n ∧
        (decimate points).length ≤ 500 ∧
        (decimate points)[0]? = points[0]?) := by
  constructor
  · intro h
    unfold decimate
    rw [if_neg (by omega)]
  · intro h n hn
    subst hn
    have hn0 : 0 < (points.length + 499) / 500 := by omega
    have heq := decimate_eq_everyNth h
    have hidx : ∀ j : Nat,
        (decimate points)[j]? = points[j * ((points.length + 499) / 500)]? := by
      intro j
      rw [heq]
      exact everyNth_getElem? hn0 points.length points j (Nat.le_refl _)
    refine ⟨hidx, ?_, decimate_length_le points, by simpa using hidx 0⟩
    rw [heq]
    exact everyNth_length hn0 points.length points (Nat.le_refl _)

/-- A concrete 1200-point list (the spec scenario for decimation). -/
def big1200 : List AlignedPoint :=
  (List.range 1200).map (fun i => { time := TimeLabel.timeOfDay 0, ts := i, values := [] })

/-- Witness for C3: the empty list is untouched, and 1200 points are decimated
with stride 3 down to 400 points keeping the first one. -/
theorem c3_witness :
    decimate [] = ([] : List AlignedPoint) ∧
    (decimate big1200).length = 400 ∧
    (decimate big1200).length ≤ 500 ∧
    (decimate big1200)[0]? = big1200[0]? := by
  have hlen : big1200.length = 1200 := by simp [big1200]
  have h1 := (c3_decimation_bound []).1 (by simp)
  have h2 := (c3_decimation_bound big1200).2 (by rw [hlen]; norm_num) 3
    (by rw [hlen])
  obtain ⟨hidx, hl, hb, h0⟩ := h2
  refine ⟨h1, ?_, hb, h0⟩
  rw [hl, hlen]

/-! ### C6: label format selection -/

/-- C6: the label format is chosen by the requested span alone: up to 24 hours
an HH:MM label, over 24 and up to 168 hours a weekday plus HH:MM label, over
168 hours a month-plus-day label without time-of-day; the label never affects
which points exist, and distinct timestamps may share a month-plus-day label. -/
theorem c6_label_by_span :
    (∀ (ts : Nat) (hours : ℚ),
      (hours ≤ 24 → formatTimestamp ts hours = TimeLabel.timeOfDay (ts % 1440)) ∧
      (24 < hours → hours ≤ 168 →
        formatTimestamp ts hours = TimeLabel.weekdayTime (ts % 10080)) ∧
      (168 < hours → formatTimestamp ts hours = TimeLabel.monthDay (ts / 1440))) ∧
    (∀ (sensors : List SensorSeries) (h1 h2 : ℚ),
      (alignedPoints sensors h1).map (fun p => p.ts) =
        (alignedPoints sensors h2).map (fun p => p.ts)) ∧
    (formatTimestamp 30 200 = formatTimestamp 90 200 ∧ (30 : Nat) ≠ 90) := by
  refine ⟨?_, ?_, ⟨by decide, by decide⟩⟩
  · intro ts hours
    refine ⟨fun h24 => ?_, fun h24 h168 => ?_, fun h168 => ?_⟩
    · rw [formatTimestamp, if_pos h24]
    · rw [formatTimestamp, if_neg (by linarith), if_pos h168]
    · rw [formatTimestamp, if_neg (by linarith), if_neg (by linarith)]
  · intro sensors h1 h2
    have hperm : ((alignedPoints sensors h1).map (fun p => p.ts)).Perm
        ((alignedPoints sensors h2).map (fun p => p.ts)) :=
      (map_ts_alignedPoints_perm sensors h1).trans
        (map_ts_alignedPoints_perm sensors h2).symm
    have hs1 : ((alignedPoints sensors h1).map (fun p => p.ts)).Sorted (· ≤ ·) :=
      List.pairwise_map.mpr (sorted_le_alignedPoints sensors h1)
    have hs2 : ((alignedPoints sensors h2).map (fun p => p.ts)).Sorted (· ≤ ·) :=
      List.pairwise_map.mpr (sorted_le_alignedPoints sensors h2)
    exact List.eq_of_perm_of_sorted hperm hs1 hs2

/-- Witness for C6: each span bucket produces its format at a concrete instant. -/
theorem c6_witness :
    formatTimestamp 100 24 = TimeLabel.timeOfDay 100 ∧
    formatTimestamp 100 48 = TimeLabel.weekdayTime 100 ∧
    formatTimestamp 100 200 = TimeLabel.monthDay 0 := by
  obtain ⟨hmain, -, -⟩ := c6_label_by_span
  refine ⟨?_, ?_, ?_⟩
  · simpa using (hmain 100 24).1 (by norm_num)
  · simpa using (hmain 100 48).2.1 (by norm_num) (by norm_num)
  · simpa using (hmain 100 200).2.2 (by norm_num)

/-! ### C1: per-zone mean and gap behaviour -/

/-- C1 (amended): at every aligned point and for every zone key, the point
carries the zone key exactly when some member sensor's first reading at that
instant has a non-null value, and then the value is the arithmetic mean of
those per-sensor first-match values rounded to one decimal place; otherwise
the key is absent. -/
theorem c1_zone_mean_and_gap (sensors : List SensorSeries) (hours : ℚ) (z : Int)
    (p : AlignedPoint) (hp : p ∈ alignedPoints sensors hours) :
    valueFind z p.values =
      if gatheredValues sensors z p.ts = [] then none
      else some (round1 ((gatheredValues sensors z p.ts).sum /
        ((gatheredValues sensors z p.ts).length : ℚ))) := by
  have hmem := (alignedPoints_perm sensors hours).mem_iff.mp hp
  obtain ⟨t, ht, rfl⟩ := List.mem_map.mp hmem
  rw [valueFind_pointAt (nodup_keys_zoneMapOf sensors), zmFind_zoneMapOf, ts_pointAt]
  unfold groupSpec gatheredValues
  cases hmem2 : membersOf sensors z with
  | nil => simp [hmem2]
  | cons s0 rest =>
      simp only [Option.some_bind]
      rfl

/-- A sensor with two readings at the same instant: the first has a null
value, the second a non-null one. -/
def sensorDup : SensorSeries :=
  { sensor_id := 1, entity_id := "dup", friendly_name := "Dup", zone_id := some 1,
    zone_color := none, is_outdoor := false,
    readings := [{ timestamp := 5, value := none }, { timestamp := 5, value := some 42 }] }

theorem collectTimestamps_sensorDup : collectTimestamps [sensorDup] = [5] := by decide

theorem alignedPoints_sensorDup :
    alignedPoints [sensorDup] 24 =
      [pointAt (zoneMapOf [sensorDup]) (fun ts => formatTimestamp ts 24) 5] := by
  rw [alignedPoints, collectTimestamps_sensorDup]
  simp only [List.map_cons, List.map_nil]
  exact sortPoints_singleton _

/-- C1 counterexample: zone 1's only sensor has a non-null reading at instant 5
(its second reading there), yet the aligned point at 5 has no zone-1 key,
because the lookup uses only the first reading at that instant. -/
theorem c1_counterexample :
    (∃ s ∈ [sensorDup], s.zone_id = some 1 ∧
      ∃ r ∈ s.readings, r.timestamp = 5 ∧ r.value ≠ none) ∧
    ∀ p ∈ alignedPoints [sensorDup] 24, p.ts = 5 ∧ valueFind 1 p.values = none := by
  constructor
  · exact ⟨sensorDup, by decide, by decide,
      { timestamp := 5, value := some 42 }, by decide, by decide⟩
  · intro p hp
    rw [alignedPoints_sensorDup] at hp
    rcases List.mem_singleton.mp hp with rfl
    exact ⟨rfl, by decide⟩

/-- Zone-1 sensor reading 70 at instant 5. -/
def sensorA : SensorSeries :=
  { sensor_id := 1, entity_id := "a", friendly_name := "A", zone_id := some 1,
    zone_color := some "#112233", is_outdoor := false,
    readings := [{ timestamp := 5, value := some 70 }] }

/-- Zone-1 sensor reading 74 at instant 5. -/
def sensorB : SensorSeries :=
  { sensor_id := 2, entity_id := "b", friendly_name := "B", zone_id := some 1,
    zone_color := none, is_outdoor := false,
    readings := [{ timestamp := 5, value := some 74 }] }

theorem collectTimestamps_AB : collectTimestamps [sensorA, sensorB] = [5] := by decide

theorem alignedPoints_AB :
    alignedPoints [sensorA, sensorB] 24 =
      [pointAt (zoneMapOf [sensorA, sensorB]) (fun ts => formatTimestamp ts 24) 5] := by
  rw [alignedPoints, collectTimestamps_AB]
  simp only [List.map_cons, List.map_nil]
  exact sortPoints_singleton _

/-- Witness for C1: sensors reporting 70 and 74 at the same instant yield a
zone value of 72.0. -/
theorem c1_witness :
    valueFind 1 (pointAt (zoneMapOf [sensorA, sensorB])
      (fun ts => formatTimestamp ts 24) 5).values = some 72 := by
  have hp : pointAt (zoneMapOf [sensorA, sensorB]) (fun ts => formatTimestamp ts 24) 5 ∈
      alignedPoints [sensorA, sensorB] 24 := by
    rw [alignedPoints_AB]
    exact List.mem_singleton.mpr rfl
  have h := c1_zone_mean_and_gap [sensorA, sensorB] 24 1 _ hp
  rw [ts_pointAt] at h
  have hg : gatheredValues [sensorA, sensorB] 1 5 = [70, 74] := by decide
  rw [hg] at h
  rw [if_neg (by decide)] at h
  rw [h]
  have hsum : ([(70 : ℚ), 74].sum) = 144 := by
    simp only [List.sum_cons, List.sum_nil]
    norm_num
  have hlen : (([(70 : ℚ), 74].length : Nat) : ℚ) = 2 := by norm_num
  rw [hsum, hlen]
  norm_num [round1, jsRound]

/-! ### C5: null-zone series -/

theorem foldl_addSensor_filter_isSome :
    ∀ (l : List SensorSeries) (m : ZoneMap),
      (l.filter (fun s => s.zone_id.isSome)).foldl addSensor m = l.foldl addSensor m := by
  intro l
  induction l with
  | nil => intro m; rfl
  | cons s l ih =>
      intro m
      cases hz : s.zone_id with
      | none =>
          have hskip : addSensor m s = m := by simp [addSensor, hz]
          have hp : (s.zone_id.isSome : Bool) = false := by simp [hz]
          simp only [List.filter_cons, hp, Bool.false_eq_true, if_false, List.foldl_cons, hskip]
          exact ih m
      | some z =>
          have hp : (s.zone_id.isSome : Bool) = true := by simp [hz]
          simp only [List.filter_cons, hp, if_true, List.foldl_cons]
          exact ih (addSensor m s)

theorem zoneMapOf_filter_isSome (sensors : List SensorSeries) :
    zoneMapOf (sensors.filter (fun s => s.zone_id.isSome)) = zoneMapOf sensors :=
  foldl_addSensor_filter_isSome sensors []

/-- C5 (amended): series with a null zone id contribute no zone group and no
chart line — filtering them out leaves the zone map and the emitted ChartLines
unchanged — but their readings' timestamps do enter the timestamp union, so
they can still contribute (zone-less) aligned points. -/
theorem c5_null_zone_series (sensors : List SensorSeries) (names : List (Int × String))
    (hours : ℚ) :
    zoneMapOf (sensors.filter (fun s => s.zone_id.isSome)) = zoneMapOf sensors ∧
    (History.buildZoneChart (sensors.filter (fun s => s.zone_id.isSome)) names
        hours).chartLines =
      (History.buildZoneChart sensors names hours).chartLines ∧
    ∀ t : Nat, t ∈ (alignedPoints sensors hours).map (fun p => p.ts) ↔
      ∃ s ∈ sensors, ∃ r ∈ s.readings, r.timestamp = t := by
  refine ⟨zoneMapOf_filter_isSome sensors, ?_, ?_⟩
  · show chartLinesOf (zoneMapOf (sensors.filter (fun s => s.zone_id.isSome))) names =
      chartLinesOf (zoneMapOf sensors) names
    rw [zoneMapOf_filter_isSome]
  · intro t
    rw [(map_ts_alignedPoints_perm sensors hours).mem_iff]
    exact mem_collectTimestamps

/-- A sensor that belongs to no zone but has a reading at instant 7. -/
def sensorNull : SensorSeries :=
  { sensor_id := 3, entity_id := "null", friendly_name := "Null", zone_id := none,
    zone_color := none, is_outdoor := false,
    readings := [{ timestamp := 7, value := some 70 }] }

theorem collectTimestamps_sensorNull : collectTimestamps [sensorNull] = [7] := by decide

theorem alignedPoints_sensorNull :
    alignedPoints [sensorNull] 24 =
      [pointAt (zoneMapOf [sensorNull]) (fun ts => formatTimestamp ts 24) 7] := by
  rw [alignedPoints, collectTimestamps_sensorNull]
  simp only [List.map_cons, List.map_nil]
  exact sortPoints_singleton _

theorem alignedPoints_empty (hours : ℚ) : alignedPoints [] hours = [] := by
  rw [alignedPoints]
  show sortPoints (List.map _ (collectTimestamps [])) = []
  rw [show collectTimestamps [] = [] from rfl]
  exact sortPoints_nil

/-- C5 counterexample: removing the null-zone series changes the output — its
reading's timestamp produced an aligned point, so null-zone entries are not
ignored entirely. -/
theorem c5_counterexample :
    sensorNull.zone_id = none ∧
    (alignedPoints [sensorNull] 24).map (fun p => p.ts) = [7] ∧
    History.buildZoneChart [sensorNull] [] 24 ≠ History.buildZoneChart [] [] 24 := by
  have hpts : alignedPoints [sensorNull] 24 =
      [pointAt (zoneMapOf [sensorNull]) (fun ts => formatTimestamp ts 24) 7] :=
    alignedPoints_sensorNull
  refine ⟨rfl, by rw [hpts]; rfl, ?_⟩
  intro hcontra
  have hp : (History.buildZoneChart [sensorNull] [] 24).chartPoints =
      (History.buildZoneChart [] [] 24).chartPoints := by rw [hcontra]
  rw [show (History.buildZoneChart [sensorNull] [] 24).chartPoints =
      decimate (alignedPoints [sensorNull] 24) from rfl,
    show (History.buildZoneChart [] [] 24).chartPoints =
      decimate (alignedPoints [] 24) from rfl,
    hpts, alignedPoints_empty] at hp
  have h1 : decimate [pointAt (zoneMapOf [sensorNull]) (fun ts => formatTimestamp ts 24) 7] =
      [pointAt (zoneMapOf [sensorNull]) (fun ts => formatTimestamp ts 24) 7] := by
    unfold decimate
    rw [if_neg (by norm_num)]
  have h2 : decimate [] = ([] : List AlignedPoint) := by
    unfold decimate
    rw [if_neg (by norm_num)]
  rw [h1, h2] at hp
  exact List.cons_ne_nil _ _ hp

/-! ### C7, C8, C9: chart lines -/

theorem find?_eq_filter_head? {α : Type} (p : α → Bool) :
    ∀ l : List α, l.find? p = (l.filter p).head? := by
  intro l
  induction l with
  | nil => rfl
  | cons a l ih =>
      cases hp : p a with
      | true =>
          rw [List.find?_cons_of_pos _ hp, List.filter_cons, if_pos hp]
          rfl
      | false =>
          rw [List.find?_cons_of_neg _ (by simp [hp]), List.filter_cons,
            if_neg (by simp [hp])]
          exact ih

/-- C7: a zone line is outdoor-flagged exactly when some member sensor of that
zone is outdoor, independently of input order. -/
theorem c7_outdoor_flag (sensors : List SensorSeries) (names : List (Int × String))
    (hours : ℚ) (line : ChartLine)
    (hl : line ∈ (History.buildZoneChart sensors names hours).chartLines) :
    line.isOutdoor = true ↔
      ∃ s ∈ sensors, s.zone_id = some line.key ∧ s.is_outdoor = true := by
  have hl2 : line ∈ chartLinesOf (zoneMapOf sensors) names := hl
  obtain ⟨e, he, rfl⟩ := List.mem_map.mp hl2
  have hfind := zmFind_of_mem (nodup_keys_zoneMapOf sensors) he
  rw [zmFind_zoneMapOf] at hfind
  show e.2.isOutdoor = true ↔ ∃ s ∈ sensors, s.zone_id = some e.1 ∧ s.is_outdoor = true
  unfold groupSpec at hfind
  rcases hmem : membersOf sensors e.1 with - | ⟨s0, rest⟩
  · simp only [hmem] at hfind
    cases hfind
  · simp only [hmem, Option.some.injEq] at hfind
    rw [← hfind]
    show (s0 :: rest).any (fun s => s.is_outdoor) = true ↔ _
    rw [List.any_eq_true, ← hmem]
    constructor
    · rintro ⟨x, hx, hout⟩
      have hx2 := List.mem_filter.mp hx
      exact ⟨x, hx2.1, by simpa using hx2.2, hout⟩
    · rintro ⟨s, hs, hz, hout⟩
      exact ⟨s, List.mem_filter.mpr ⟨hs, by simpa using hz⟩, hout⟩

/-- Indoor zone-1 sensor. -/
def sensorIn : SensorSeries :=
  { sensor_id := 4, entity_id := "in", friendly_name := "In", zone_id := some 1,
    zone_color := none, is_outdoor := false, readings := [] }

/-- Outdoor zone-1 sensor. -/
def sensorOut : SensorSeries :=
  { sensor_id := 5, entity_id := "out", friendly_name := "Out", zone_id := some 1,
    zone_color := none, is_outdoor := true, readings := [] }

/-- Witness for C7: a zone with one indoor and one outdoor sensor is flagged
outdoor. -/
theorem c7_witness :
    ({ key := 1, name := "Zone 1", color := "#38bdf8", isOutdoor := true } :
      ChartLine).isOutdoor = true := by
  have hlines : (History.buildZoneChart [sensorIn, sensorOut] [] 24).chartLines =
      [{ key := 1, name := "Zone 1", color := "#38bdf8", isOutdoor := true }] := by decide
  have hmem : ({ key := 1, name := "Zone 1", color := "#38bdf8", isOutdoor := true } :
      ChartLine) ∈ (History.buildZoneChart [sensorIn, sensorOut] [] 24).chartLines := by
    rw [hlines]
    exact List.mem_singleton.mpr rfl
  exact (c7_outdoor_flag [sensorIn, sensorOut] [] 24 _ hmem).mpr
    ⟨sensorOut, by decide, by decide, by decide⟩

/-- C8 (amended): a zone line's color comes from the first-seen member sensor
alone — that sensor's color when it supplies a non-empty one, the default
"#38bdf8" otherwise — regardless of colors supplied by later members. -/
theorem c8_first_sensor_color (sensors : List SensorSeries) (names : List (Int × String))
    (hours : ℚ) (line : ChartLine)
    (hl : line ∈ (History.buildZoneChart sensors names hours).chartLines) :
    ∃ s0, sensors.find? (fun s => s.zone_id == some line.key) = some s0 ∧
      line.color = jsOrElse s0.zone_color "#38bdf8" := by
  have hl2 : line ∈ chartLinesOf (zoneMapOf sensors) names := hl
  obtain ⟨e, he, rfl⟩ := List.mem_map.mp hl2
  have hfind := zmFind_of_mem (nodup_keys_zoneMapOf sensors) he
  rw [zmFind_zoneMapOf] at hfind
  show ∃ s0, sensors.find? (fun s => s.zone_id == some e.1) = some s0 ∧
    e.2.color = jsOrElse s0.zone_color "#38bdf8"
  unfold groupSpec at hfind
  rcases hmem : membersOf sensors e.1 with - | ⟨s0, rest⟩
  · simp only [hmem] at hfind
    cases hfind
  · simp only [hmem, Option.some.injEq] at hfind
    refine ⟨s0, ?_, ?_⟩
    · rw [find?_eq_filter_head?]
      show (membersOf sensors e.1).head? = some s0
      rw [hmem]
      rfl
    · rw [← hfind]

/-- First zone-1 sensor, supplying no color. -/
def sensorC : SensorSeries :=
  { sensor_id := 6, entity_id := "c", friendly_name := "C", zone_id := some 1,
    zone_color := none, is_outdoor := false, readings := [] }

/-- Second zone-1 sensor, supplying a color. -/
def sensorD : SensorSeries :=
  { sensor_id := 7, entity_id := "d", friendly_name := "D", zone_id := some 1,
    zone_color := some "#ff0000", is_outdoor := false, readings := [] }

/-- C8 counterexample: the first-seen sensor supplies no color and a later
member does, yet the zone line uses the default color, not the later member's. -/
theorem c8_counterexample :
    sensorD.zone_color = some "#ff0000" ∧
    (History.buildZoneChart [sensorC, sensorD] [] 24).chartLines.map (fun l => l.color) =
      ["#38bdf8"] ∧
    ("#38bdf8" : String) ≠ "#ff0000" := by
  exact ⟨rfl, by decide, by decide⟩

/-- Witness for C8: on the two-sensor zone the first-seen sensor (colorless)
decides the color. -/
theorem c8_witness :
    ∃ s0, [sensorC, sensorD].find? (fun s => s.zone_id == some (1 : Int)) = some s0 ∧
      ("#38bdf8" : String) = jsOrElse s0.zone_color "#38bdf8" := by
  have hlines : (History.buildZoneChart [sensorC, sensorD] [] 24).chartLines =
      [{ key := 1, name := "Zone 1", color := "#38bdf8", isOutdoor := false }] := by decide
  have hmem : ({ key := 1, name := "Zone 1", color := "#38bdf8", isOutdoor := false } :
      ChartLine) ∈ (History.buildZoneChart [sensorC, sensorD] [] 24).chartLines := by
    rw [hlines]
    exact List.mem_singleton.mpr rfl
  simpa using c8_first_sensor_color [sensorC, sensorD] [] 24 _ hmem

/-- C9 (amended): exactly one ChartLine per zone having at least one member
sensor in the input; its name is the registry entry when that entry exists and
is non-empty, and the fallback "Zone " followed by the id otherwise. -/
theorem c9_chart_lines (sensors : List SensorSeries) (names : List (Int × String))
    (hours : ℚ) :
    ((History.buildZoneChart sensors names hours).chartLines.map (fun l => l.key)).Nodup ∧
    (∀ z : Int, (∃ line ∈ (History.buildZoneChart sensors names hours).chartLines,
        line.key = z) ↔ ∃ s ∈ sensors, s.zone_id = some z) ∧
    ∀ line ∈ (History.buildZoneChart sensors names hours).chartLines,
      line.name = jsOrElse (nameFind names line.key) ("Zone " ++ toString line.key) := by
  have hkeys : (History.buildZoneChart sensors names hours).chartLines.map (fun l => l.key) =
      (zoneMapOf sensors).map (fun e => e.1) := by
    show (chartLinesOf (zoneMapOf sensors) names).map (fun l => l.key) = _
    rw [chartLinesOf, List.map_map]
    rfl
  refine ⟨by rw [hkeys]; exact nodup_keys_zoneMapOf sensors, ?_, ?_⟩
  · intro z
    constructor
    · rintro ⟨line, hline, rfl⟩
      have hl2 : line ∈ chartLinesOf (zoneMapOf sensors) names := hline
      obtain ⟨e, he, rfl⟩ := List.mem_map.mp hl2
      have hfind := zmFind_of_mem (nodup_keys_zoneMapOf sensors) he
      rw [zmFind_zoneMapOf] at hfind
      show ∃ s ∈ sensors, s.zone_id = some e.1
      unfold groupSpec at hfind
      rcases hmem : membersOf sensors e.1 with - | ⟨s0, rest⟩
      · simp only [hmem] at hfind
        cases hfind
      · have hs0 : s0 ∈ membersOf sensors e.1 := by
          rw [hmem]
          exact List.mem_cons_self ..
        have hs2 := List.mem_filter.mp hs0
        exact ⟨s0, hs2.1, by simpa using hs2.2⟩
    · rintro ⟨s, hs, hz⟩
      have hzm : zmFind (zoneMapOf sensors) z ≠ none := by
        rw [zmFind_zoneMapOf]
        unfold groupSpec
        rcases hmem : membersOf sensors z with - | ⟨s0, rest⟩
        · exfalso
          have hsm : s ∈ membersOf sensors z :=
            List.mem_filter.mpr ⟨hs, by simpa using hz⟩
          rw [hmem] at hsm
          simp at hsm
        · simp
      cases hfe : (zoneMapOf sensors).find? (fun e => e.1 == z) with
      | none =>
          exfalso
          apply hzm
          simp [zmFind, hfe]
      | some e =>
          have he := List.mem_of_find?_eq_some hfe
          have hez : e.1 = z := by
            have := List.find?_some hfe
            simpa using this
          exact ⟨_, List.mem_map.mpr ⟨e, he, rfl⟩, hez⟩
  · intro line hline
    have hl2 : line ∈ chartLinesOf (zoneMapOf sensors) names := hline
    obtain ⟨e, he, rfl⟩ := List.mem_map.mp hl2
    rfl

/-- A zone-7 sensor with no readings. -/
def sensorE : SensorSeries :=
  { sensor_id := 8, entity_id := "e", friendly_name := "E", zone_id := some 7,
    zone_color := none, is_outdoor := false, readings := [] }

/-- C9 counterexample: the registry resolves zone 7 to the empty string, yet
the emitted line uses the fallback name, because the JS lookup treats the
empty string as falsy. -/
theorem c9_counterexample :
    nameFind [((7 : Int), "")] 7 = some "" ∧
    (History.buildZoneChart [sensorE] [((7 : Int), "")] 24).chartLines.map
      (fun l => l.name) = ["Zone 7"] ∧
    ("Zone 7" : String) ≠ "" := by
  exact ⟨by decide, by decide, by decide⟩

/-- Witness for C9: with a non-empty registry entry the line takes that name. -/
theorem c9_witness :
    ({ key := 7, name := "Living", color := "#38bdf8", isOutdoor := false } :
        ChartLine).name =
      jsOrElse (nameFind [((7 : Int), "Living")] 7) ("Zone " ++ toString (7 : Int)) := by
  have hlines : (History.buildZoneChart [sensorE] [((7 : Int), "Living")] 24).chartLines =
      [{ key := 7, name := "Living", color := "#38bdf8", isOutdoor := false }] := by decide
  have hmem : ({ key := 7, name := "Living", color := "#38bdf8", isOutdoor := false } :
      ChartLine) ∈ (History.buildZoneChart [sensorE] [((7 : Int), "Living")] 24).chartLines := by
    rw [hlines]
    exact List.mem_singleton.mpr rfl
  exact (c9_chart_lines [sensorE] [((7 : Int), "Living")] 24).2.2 _ hmem

/-! ### C10: Dashboard vs History variants -/

theorem length_alignedPoints (sensors : List SensorSeries) (hours : ℚ) :
    (alignedPoints sensors hours).length = (collectTimestamps sensors).length := by
  rw [(alignedPoints_perm sensors hours).length_eq, List.length_map]

/-- C10: with a span of at most 24 hours the Dashboard variant and the History
variant agree whenever at most 500 distinct timestamps occur; with more than
500 distinct timestamps they diverge, the Dashboard variant returning one
point per distinct timestamp while the History variant is capped at 500. -/
theorem c10_dashboard_vs_history (sensors : List SensorSeries)
    (names : List (Int × String)) (hours : ℚ) :
    (hours ≤ 24 → (collectTimestamps sensors).length ≤ 500 →
      Dashboard.buildZoneChart sensors (some names) =
        History.buildZoneChart sensors names hours) ∧
    (500 < (collectTimestamps sensors).length →
      (Dashboard.buildZoneChart sensors (some names)).chartPoints.length =
        (collectTimestamps sensors).length ∧
      (History.buildZoneChart sensors names hours).chartPoints.length ≤ 500 ∧
      (Dashboard.buildZoneChart sensors (some names)).chartPoints ≠
        (History.buildZoneChart sensors names hours).chartPoints) := by
  have hdlen : (Dashboard.buildZoneChart sensors (some names)).chartPoints.length =
      (collectTimestamps sensors).length := by
    show (sortPoints _).length = _
    rw [(sortPoints_perm _).length_eq, List.length_map]
  constructor
  · intro h24 hlen
    have hlabel : (fun ts => formatTimestamp ts hours) =
        (fun ts => TimeLabel.timeOfDay (ts % 1440)) := by
      funext ts
      rw [formatTimestamp, if_pos h24]
    have hpts : alignedPoints sensors hours =
        sortPoints ((collectTimestamps sensors).map
          (pointAt (zoneMapOf sensors) (fun ts => TimeLabel.timeOfDay (ts % 1440)))) := by
      rw [alignedPoints, hlabel]
    have halen := length_alignedPoints sensors hours
    have hdec : decimate (alignedPoints sensors hours) = alignedPoints sensors hours := by
      unfold decimate
      rw [if_neg (by omega)]
    unfold Dashboard.buildZoneChart History.buildZoneChart
    congr 1
    rw [hdec, hpts]
  · intro hbig
    refine ⟨hdlen, decimate_length_le _, ?_⟩
    intro hcontra
    have hlen2 := congrArg List.length hcontra
    rw [hdlen] at hlen2
    have hh : (History.buildZoneChart sensors names hours).chartPoints.length ≤ 500 :=
      decimate_length_le _
    omega

/-- A zone-1 sensor with n distinct reading timestamps. -/
def bigSensorN (n : Nat) : SensorSeries :=
  { sensor_id := 9, entity_id := "big", friendly_name := "Big", zone_id := some 1,
    zone_color := none, is_outdoor := false,
    readings := (List.range n).map (fun i => { timestamp := i, value := none }) }

theorem foldl_insertTs_of_nodup :
    ∀ (rs : List ReadingPoint) (acc : List Nat),
      ((rs.map (fun r => r.timestamp)).Nodup) → (∀ r ∈ rs, r.timestamp ∉ acc) →
      rs.foldl (fun a r => insertTs a r.timestamp) acc =
        acc ++ rs.map (fun r => r.timestamp) := by
  intro rs
  induction rs with
  | nil =>
      intro acc _ _
      simp
  | cons r rs ih =>
      intro acc hnd hnin
      simp only [List.map_cons, List.nodup_cons] at hnd
      simp only [List.foldl_cons]
      have hr : r.timestamp ∉ acc := hnin r (List.mem_cons_self ..)
      rw [show insertTs acc r.timestamp = acc ++ [r.timestamp] from by
        unfold insertTs
        rw [if_neg hr]]
      rw [ih (acc ++ [r.timestamp]) hnd.2 ?_]
      · simp
      · intro r2 hr2 hmem
        rcases List.mem_append.mp hmem with hin | hin
        · exact hnin r2 (List.mem_cons_of_mem _ hr2) hin
        · rcases List.mem_singleton.mp hin with heq
          exact hnd.1 (heq ▸ List.mem_map.mpr ⟨r2, hr2, rfl⟩)

theorem map_timestamp_bigSensorN (n : Nat) :
    (bigSensorN n).readings.map (fun r => r.timestamp) = List.range n := by
  show (((List.range n).map
    (fun i => ({ timestamp := i, value := none } : ReadingPoint))).map
      (fun r => r.timestamp)) = List.range n
  rw [List.map_map]
  exact List.map_id _

theorem collect_bigSensorN (n : Nat) :
    collectTimestamps [bigSensorN n] = List.range n := by
  have hnodup : ((bigSensorN n).readings.map (fun r => r.timestamp)).Nodup := by
    rw [map_timestamp_bigSensorN n]
    exact List.nodup_range n
  have h := foldl_insertTs_of_nodup (bigSensorN n).readings [] hnodup (by simp)
  show List.foldl (fun acc s => s.readings.foldl (fun a r => insertTs a r.timestamp) acc)
    [] [bigSensorN n] = List.range n
  simp only [List.foldl_cons, List.foldl_nil]
  rw [h, List.nil_append, map_timestamp_bigSensorN n]

/-- Witness for C10: the two variants agree on the empty input, and diverge on
a 501-timestamp input where only the History variant is capped. -/
theorem c10_witness :
    Dashboard.buildZoneChart [] (some []) = History.buildZoneChart [] [] 24 ∧
    (Dashboard.buildZoneChart [bigSensorN 501] (some [])).chartPoints.length = 501 ∧
    (History.buildZoneChart [bigSensorN 501] [] 24).chartPoints.length ≤ 500 ∧
    (Dashboard.buildZoneChart [bigSensorN 501] (some [])).chartPoints ≠
      (History.buildZoneChart [bigSensorN 501] [] 24).chartPoints := by
  have hc : (collectTimestamps [bigSensorN 501]).length = 501 := by
    rw [collect_bigSensorN 501, List.length_range]
  have h1 := (c10_dashboard_vs_history [] [] 24).1 (by norm_num)
    (by rw [show collectTimestamps [] = [] from rfl]; simp)
  have h2 := (c10_dashboard_vs_history [bigSensorN 501] [] 24).2 (by omega)
  obtain ⟨ha, hb, hc2⟩ := h2
  refine ⟨h1, ?_, hb, hc2⟩
  rw [ha]
  exact hc

end ClimateAnalyzer
